import Mathlib

/-!
Shallow embedding of the page-interaction script `src/js/main.js`:
the FAQ accordion controller (`initFaqAccordions` click handler and the
`toggleFaq` utility), the form-validation controller (`validateField`,
`showError`, `clearError` and the submit handler of
`initFormValidation`), and the `formatPhone` utility.  The DOM state each
of these touches is modelled explicitly; string values are lists of
characters so that the regex tests can be stated and proved by
structural induction.
-/

/-! ### Characters and strings -/

/-- Model of the JS `String.prototype.trim`: drop whitespace from both
ends of the value. -/
def trimList (s : List Char) : List Char :=
  ((s.dropWhile (fun c => c.isWhitespace)).reverse.dropWhile
    (fun c => c.isWhitespace)).reverse

/-- One character of the regex class `[^\s@]` used by the email pattern
in `validateField`. -/
def nonWsAt (c : Char) : Bool :=
  !c.isWhitespace && c != '@'

/-- Tail of the email regex after at least one domain character has been
consumed: the remaining input must contain the literal dot followed by a
nonempty run of `[^\s@]` characters, with every character before that
dot also in `[^\s@]`. -/
def matchDomainTail : List Char → Bool
  | [] => false
  | c :: cs =>
      (c == '.' && !cs.isEmpty && cs.all nonWsAt) ||
      (nonWsAt c && matchDomainTail cs)

/-- The part of the email regex after the `@`: `[^\s@]+\.[^\s@]+`. -/
def matchDomain : List Char → Bool
  | [] => false
  | c :: cs => nonWsAt c && matchDomainTail cs

/-- Remainder of the email regex once at least one local character has
been consumed: `[^\s@]*@[^\s@]+\.[^\s@]+`.  The character class of the
local part excludes `@`, so the first `@` necessarily separates local
part and domain. -/
def matchLocalTail : List Char → Bool
  | [] => false
  | c :: cs => if c = '@' then matchDomain cs else nonWsAt c && matchLocalTail cs

/-- Executable test of the source regex
`^[^\s@]+@[^\s@]+\.[^\s@]+$` from `validateField`. -/
def emailCheck : List Char → Bool
  | [] => false
  | c :: cs => nonWsAt c && matchLocalTail cs

/-- One character of the regex class `[\d\s\-\(\)\+]` used by the phone
pattern in `validateField`. -/
def telChar (c : Char) : Bool :=
  c.isDigit || c.isWhitespace || c == '-' || c == '(' || c == ')' || c == '+'

/-- Executable test of the source regex `^[\d\s\-\(\)\+]+$` from
`validateField`. -/
def telCheck (v : List Char) : Bool :=
  !v.isEmpty && v.all telChar

/-- Modelled from the spec words for the email rule: the value fits the
pattern `local@domain.tld` with nonempty local, domain and tld segments,
no whitespace anywhere, and exactly one `@`; the dot between the domain
and tld segments supplies the required `.` in the domain part. -/
def emailSpecOk (s : List Char) : Prop :=
  ∃ L D T : List Char, L ≠ [] ∧ D ≠ [] ∧ T ≠ [] ∧
    s = L ++ '@' :: (D ++ '.' :: T) ∧
    (∀ c ∈ s, c.isWhitespace = false) ∧ s.count '@' = 1

/-! ### Form validation (`initFormValidation`, `validateField`,
`showError`, `clearError`) -/

/-- The element resolved from the `aria-describedby` attribute of an
input: the error-message display target. -/
structure ErrorEl where
  textContent : String
  display : String
deriving DecidableEq

/-- The DOM state of one input of a validated form that the controller
reads or writes: its value, its `type` attribute, its `required`
attribute, and whether the `error` marker class is present. -/
structure FormInput where
  value : List Char
  type : String
  required : Bool
  errorClass : Bool
deriving DecidableEq

/-- An input together with the resolution of its `aria-describedby`
cross-reference: `none` when no error-display element exists. -/
structure FieldState where
  input : FormInput
  errorEl : Option ErrorEl
deriving DecidableEq

/-- Embedding of `showError(input, message)`: add the `error` class to
the input and, when the described-by target resolves, write the message
into it and set its display to `block`. -/
def showError (s : FieldState) (msg : String) : FieldState :=
  { input := { s.input with errorClass := true },
    errorEl := s.errorEl.map (fun _ => { textContent := msg, display := "block" }) }

/-- Embedding of `clearError(input)`: remove the `error` class and,
when the described-by target resolves, empty it and set its display to
`none`. -/
def clearError (s : FieldState) : FieldState :=
  { input := { s.input with errorClass := false },
    errorEl := s.errorEl.map (fun _ => { textContent := "", display := "none" }) }

/-- Embedding of `validateField(input)`: clear any previous error, then
run the required check, the email pattern check and the phone pattern
check in order, each early-returning `false` with its message; the
separate `if` statements of the source behave as an else-if chain
because every taken branch returns. -/
def validateField (s : FieldState) : Bool × FieldState :=
  if s.input.required = true ∧ trimList s.input.value = [] then
    (false, showError (clearError s) "This field is required")
  else if s.input.type = "email" ∧ trimList s.input.value ≠ [] ∧
      emailCheck (trimList s.input.value) = false then
    (false, showError (clearError s) "Please enter a valid email address")
  else if s.input.type = "tel" ∧ trimList s.input.value ≠ [] ∧
      (telCheck (trimList s.input.value) = false ∨
        ((trimList s.input.value).filter Char.isDigit).length < 10) then
    (false, showError (clearError s) "Please enter a valid phone number")
  else
    (true, clearError s)

/-- Embedding of `form.querySelector(".error")` restricted to the form
inputs: index of the first field in document order whose input carries
the `error` marker class. -/
def firstErrorIdx : List FieldState → Option Nat
  | [] => none
  | f :: rest =>
      if f.input.errorClass = true then some 0
      else (firstErrorIdx rest).map (fun n => n + 1)

/-- Index of the first field that `validateField` rejects; used to state
what the submit handler focuses. -/
def firstInvalidIdx : List FieldState → Option Nat
  | [] => none
  | f :: rest =>
      if (validateField f).1 = false then some 0
      else (firstInvalidIdx rest).map (fun n => n + 1)

/-- Outcome of one submit event: whether `preventDefault` was called,
which field (by index) received focus, and the fields afterwards. -/
structure SubmitResult where
  prevented : Bool
  focusIdx : Option Nat
  fields : List FieldState
deriving DecidableEq

/-- Embedding of the submit listener installed by `initFormValidation`:
validate every input, and when any fails, prevent the default submission
and focus the first element carrying the `error` class. -/
def submitHandler (fs : List FieldState) : SubmitResult :=
  let pairs := fs.map validateField
  let fs2 := pairs.map (fun p => p.2)
  if pairs.all (fun p => p.1) = true then
    { prevented := false, focusIdx := none, fields := fs2 }
  else
    { prevented := true, focusIdx := firstErrorIdx fs2, fields := fs2 }

/-- A field state whose input has the given type and value, carries no
error class, and has an empty visible error-display target. -/
def mkField (ty : String) (req : Bool) (v : List Char) : FieldState :=
  { input := { value := v, type := ty, required := req, errorClass := false },
    errorEl := some { textContent := "", display := "none" } }

/-- A field state like `mkField` whose `aria-describedby` attribute
resolves to no element. -/
def mkBareField (ty : String) (req : Bool) (v : List Char) : FieldState :=
  { input := { value := v, type := ty, required := req, errorClass := false },
    errorEl := none }

/-! ### FAQ accordion (`initFaqAccordions`, `toggleFaq`) -/

/-- The DOM state of one `.faq-item` that the accordion controller reads
or writes: the `open` marker class on the item, the `aria-expanded`
flag on its question, and (for stating group claims) the index of the
panel container the item sits in, which the source never consults. -/
structure FaqItem where
  isOpen : Bool
  expanded : Bool
  container : Nat
deriving DecidableEq

/-- The closing applied to every other open item inside the click
handler: remove the `open` class and set `aria-expanded` to false. -/
def closeItem (it : FaqItem) : FaqItem :=
  { it with isOpen := false, expanded := false }

/-- The `forEach` over the other items inside the click handler: every
item carrying the `open` class is closed, the rest stay untouched. -/
def closeOthers (l : List FaqItem) : List FaqItem :=
  l.map (fun it => if it.isOpen = true then closeItem it else it)

/-- Recursion of the click handler over the document-wide item list:
every item other than the clicked one is closed when open, and the
clicked item itself is toggled against its remembered `wasOpen` state. -/
def faqClickAux : Nat → Bool → List FaqItem → List FaqItem
  | _, _, [] => []
  | 0, wasOpen, it :: rest =>
      { it with isOpen := !wasOpen, expanded := !wasOpen } :: closeOthers rest
  | Nat.succ n, wasOpen, it :: rest =>
      (if it.isOpen = true then closeItem it else it) :: faqClickAux n wasOpen rest

/-- Fallback item for out-of-range reads. -/
def dfltItem : FaqItem :=
  { isOpen := false, expanded := false, container := 0 }

/-- Embedding of the click handler installed by `initFaqAccordions` on
the question of item `k`: read whether item `k` is open, close all
other open items in the document-wide `faqItems` collection, then
toggle item `k` and set its `aria-expanded` flag to the negation of the
remembered state. -/
def faqClick (items : List FaqItem) (k : Nat) : List FaqItem :=
  faqClickAux k (items.getD k dfltItem).isOpen items

/-- Recursion of `toggleFaq` over the item list: only the item holding
the clicked button is touched. -/
def toggleFaqAux : Nat → List FaqItem → List FaqItem
  | _, [] => []
  | 0, it :: rest =>
      { it with isOpen := !it.isOpen, expanded := !it.isOpen } :: rest
  | Nat.succ n, it :: rest => it :: toggleFaqAux n rest

/-- Embedding of the `toggleFaq(button)` utility: toggle the `open`
class of the item containing the button and mirror the new state into
`aria-expanded`.  No other item is visited. -/
def toggleFaq (items : List FaqItem) (k : Nat) : List FaqItem :=
  toggleFaqAux k items

/-- Number of items currently carrying the `open` class. -/
def countOpen (l : List FaqItem) : Nat :=
  l.countP (fun it => it.isOpen)

/-! ### Phone formatting (`formatPhone`) -/

/-- Embedding of the `formatPhone(input)` utility: strip every
non-digit with `replace(/\D/g, "")`, then rebuild the value
progressively in the shape `(NNN) NNN-NNNN`, slicing at 3, 6 and 10
digits. -/
def formatPhone (v : List Char) : List Char :=
  let value := v.filter Char.isDigit
  if 0 < value.length then
    if value.length ≤ 3 then
      '(' :: value
    else if value.length ≤ 6 then
      '(' :: value.take 3 ++ ')' :: ' ' :: value.drop 3
    else
      '(' :: value.take 3 ++ ')' :: ' ' :: (value.drop 3).take 3 ++
        '-' :: (value.drop 6).take 4
  else
    value

/-! ## Lemmas about the email regex -/


theorem matchDomainTail_iff (l : List Char) :
    matchDomainTail l = true ↔
      ∃ d t, l = d ++ '.' :: t ∧ d.all nonWsAt = true ∧ t ≠ [] ∧ t.all nonWsAt = true := by
  induction l with
  | nil =>
      constructor
      · intro h
        simp [matchDomainTail] at h
      · rintro ⟨d, t, heq, -, -, -⟩
        cases d <;> simp at heq
  | cons c cs ih =>
      constructor
      · intro h
        simp only [matchDomainTail, Bool.or_eq_true, Bool.and_eq_true,
          beq_iff_eq, Bool.not_eq_true', List.isEmpty_eq_false] at h
        rcases h with ⟨⟨hc, hne⟩, hall⟩ | ⟨hc, hrest⟩
        · exact ⟨[], cs, by rw [hc]; rfl, rfl, hne, hall⟩
        · rcases ih.mp hrest with ⟨d, t, heq, hd, ht, ht2⟩
          refine ⟨c :: d, t, by rw [heq]; rfl, ?_, ht, ht2⟩
          simp [List.all_cons, hc, hd]
      · rintro ⟨d, t, heq, hd, ht, ht2⟩
        cases d with
        | nil =>
            simp only [List.nil_append, List.cons.injEq] at heq
            obtain ⟨hc, hcs⟩ := heq
            subst hc; subst hcs
            simp [matchDomainTail, ht, ht2]
        | cons d0 ds =>
            simp only [List.cons_append, List.cons.injEq] at heq
            obtain ⟨hc, hcs⟩ := heq
            subst hc; subst hcs
            simp only [List.all_cons, Bool.and_eq_true] at hd
            simp only [matchDomainTail, Bool.or_eq_true, Bool.and_eq_true]
            right
            exact ⟨hd.1, ih.mpr ⟨ds, t, rfl, hd.2, ht, ht2⟩⟩

theorem matchDomain_iff (l : List Char) :
    matchDomain l = true ↔
      ∃ d t, l = d ++ '.' :: t ∧ d ≠ [] ∧ d.all nonWsAt = true ∧ t ≠ [] ∧ t.all nonWsAt = true := by
  cases l with
  | nil =>
      constructor
      · intro h; simp [matchDomain] at h
      · rintro ⟨d, t, heq, -, -, -, -⟩
        cases d <;> simp at heq
  | cons c cs =>
      simp only [matchDomain, Bool.and_eq_true, matchDomainTail_iff]
      constructor
      · rintro ⟨hc, d, t, heq, hd, ht, ht2⟩
        subst heq
        refine ⟨c :: d, t, rfl, by simp, ?_, ht, ht2⟩
        simp [List.all_cons, hc, hd]
      · rintro ⟨d, t, heq, hdne, hd, ht, ht2⟩
        cases d with
        | nil => exact absurd rfl hdne
        | cons d0 ds =>
            simp only [List.cons_append, List.cons.injEq] at heq
            obtain ⟨hc, hcs⟩ := heq
            subst hc; subst hcs
            simp only [List.all_cons, Bool.and_eq_true] at hd
            exact ⟨hd.1, ds, t, rfl, hd.2, ht, ht2⟩

theorem matchLocalTail_iff (l : List Char) :
    matchLocalTail l = true ↔
      ∃ loc rest, l = loc ++ '@' :: rest ∧ loc.all nonWsAt = true ∧ matchDomain rest = true := by
  induction l with
  | nil =>
      constructor
      · intro h; simp [matchLocalTail] at h
      · rintro ⟨loc, rest, heq, -, -⟩
        cases loc <;> simp at heq
  | cons c cs ih =>
      by_cases hc : c = '@'
      · subst hc
        simp only [matchLocalTail, if_pos rfl]
        constructor
        · intro h
          exact ⟨[], cs, rfl, rfl, h⟩
        · rintro ⟨loc, rest, heq, hloc, hdom⟩
          cases loc with
          | nil =>
              simp only [List.nil_append, List.cons.injEq] at heq
              rw [heq.2]; exact hdom
          | cons l0 ls =>
              simp only [List.cons_append, List.cons.injEq] at heq
              simp only [List.all_cons, Bool.and_eq_true] at hloc
              rw [← heq.1] at hloc
              simp [nonWsAt] at hloc
      · simp only [matchLocalTail, if_neg hc, Bool.and_eq_true, ih]
        constructor
        · rintro ⟨hnc, loc, rest, heq, hloc, hdom⟩
          subst heq
          refine ⟨c :: loc, rest, rfl, ?_, hdom⟩
          simp [List.all_cons, hnc, hloc]
        · rintro ⟨loc, rest, heq, hloc, hdom⟩
          cases loc with
          | nil =>
              simp only [List.nil_append, List.cons.injEq] at heq
              exact absurd heq.1 hc
          | cons l0 ls =>
              simp only [List.cons_append, List.cons.injEq] at heq
              obtain ⟨hc0, hcs⟩ := heq
              subst hc0; subst hcs
              simp only [List.all_cons, Bool.and_eq_true] at hloc
              exact ⟨hloc.1, ls, rest, rfl, hloc.2, hdom⟩

theorem emailCheck_iff (s : List Char) :
    emailCheck s = true ↔
      ∃ L D T : List Char, s = L ++ '@' :: (D ++ '.' :: T) ∧
        L ≠ [] ∧ L.all nonWsAt = true ∧
        D ≠ [] ∧ D.all nonWsAt = true ∧
        T ≠ [] ∧ T.all nonWsAt = true := by
  cases s with
  | nil =>
      constructor
      · intro h; simp [emailCheck] at h
      · rintro ⟨L, D, T, heq, -, -, -, -, -, -⟩
        cases L <;> simp at heq
  | cons c cs =>
      simp only [emailCheck, Bool.and_eq_true, matchLocalTail_iff, matchDomain_iff]
      constructor
      · rintro ⟨hc, loc, rest, heq, hloc, d, t, hdom, hdne, hd, ht, ht2⟩
        subst heq; subst hdom
        refine ⟨c :: loc, d, t, rfl, by simp, ?_, hdne, hd, ht, ht2⟩
        simp [List.all_cons, hc, hloc]
      · rintro ⟨L, D, T, heq, hLne, hL, hDne, hD, hTne, hT⟩
        cases L with
        | nil => exact absurd rfl hLne
        | cons l0 ls =>
            simp only [List.cons_append, List.cons.injEq] at heq
            obtain ⟨hc0, hcs⟩ := heq
            subst hc0; subst hcs
            simp only [List.all_cons, Bool.and_eq_true] at hL
            exact ⟨hL.1, ls, D ++ '.' :: T, rfl, hL.2, D, T, rfl, hDne, hD, hTne, hT⟩

theorem count_at_parts (L D T : List Char)
    (h : (L ++ '@' :: (D ++ '.' :: T)).count '@' = 1) :
    '@' ∉ L ∧ '@' ∉ D ∧ '@' ∉ T := by
  have e1 : (('@' : Char) == '@') = true := by decide
  have e2 : (('.' : Char) == '@') = false := by decide
  simp only [List.count_append, List.count_cons, e1, e2, if_true, if_false] at h
  have hA : L.count '@' = 0 ∧ D.count '@' = 0 ∧ T.count '@' = 0 := by
    refine ⟨by omega, by omega, by omega⟩
  refine ⟨?_, ?_, ?_⟩
  · exact List.count_eq_zero.mp hA.1
  · exact List.count_eq_zero.mp hA.2.1
  · exact List.count_eq_zero.mp hA.2.2

theorem emailSpecOk_iff_emailCheck (s : List Char) :
    emailSpecOk s ↔ emailCheck s = true := by
  constructor
  · rintro ⟨L, D, T, hL, hD, hT, heq, hws, hcount⟩
    subst heq
    obtain ⟨hnL, hnD, hnT⟩ := count_at_parts L D T hcount
    refine (emailCheck_iff _).mpr ⟨L, D, T, rfl, hL, ?_, hD, ?_, hT, ?_⟩
    · refine List.all_eq_true.mpr fun c hc => ?_
      have h1 : c.isWhitespace = false := hws c (by simp [hc])
      have h2 : c ≠ '@' := fun h => hnL (h ▸ hc)
      simp [nonWsAt, h1, h2]
    · refine List.all_eq_true.mpr fun c hc => ?_
      have h1 : c.isWhitespace = false := hws c (by simp [hc])
      have h2 : c ≠ '@' := fun h => hnD (h ▸ hc)
      simp [nonWsAt, h1, h2]
    · refine List.all_eq_true.mpr fun c hc => ?_
      have h1 : c.isWhitespace = false := hws c (by simp [hc])
      have h2 : c ≠ '@' := fun h => hnT (h ▸ hc)
      simp [nonWsAt, h1, h2]
  · intro h
    obtain ⟨L, D, T, heq, hLne, hL, hDne, hD, hTne, hT⟩ := (emailCheck_iff s).mp h
    subst heq
    have hchar : ∀ (l : List Char), l.all nonWsAt = true →
        ∀ c ∈ l, c.isWhitespace = false ∧ c ≠ '@' := by
      intro l hl c hc
      have := List.all_eq_true.mp hl c hc
      simp only [nonWsAt, Bool.and_eq_true, Bool.not_eq_true', bne_iff_ne] at this
      exact this
    refine ⟨L, D, T, hLne, hDne, hTne, rfl, ?_, ?_⟩
    · intro c hc
      simp only [List.mem_append, List.mem_cons] at hc
      rcases hc with hc | hc | hc
      · exact (hchar L hL c hc).1
      · rw [hc]; decide
      · rcases hc with hc | hc | hc
        · exact (hchar D hD c hc).1
        · rw [hc]; decide
        · exact (hchar T hT c hc).1
    · have cL : L.count '@' = 0 :=
        List.count_eq_zero.mpr (fun hmem => (hchar L hL '@' hmem).2 rfl)
      have cD : D.count '@' = 0 :=
        List.count_eq_zero.mpr (fun hmem => (hchar D hD '@' hmem).2 rfl)
      have cT : T.count '@' = 0 :=
        List.count_eq_zero.mpr (fun hmem => (hchar T hT '@' hmem).2 rfl)
      have e1 : (('@' : Char) == '@') = true := by decide
      have e2 : (('.' : Char) == '@') = false := by decide
      simp only [List.count_append, List.count_cons, cL, cD, cT, e1, e2, if_true, if_false]
      norm_num

/-! ## Lemmas about field validation and the submit handler -/

theorem validateField_required_branch (s : FieldState)
    (h1 : s.input.required = true) (h2 : trimList s.input.value = []) :
    validateField s = (false, showError (clearError s) "This field is required") := by
  unfold validateField
  rw [if_pos ⟨h1, h2⟩]

/-- C4: for every field that is marked required and whose trimmed value
is empty, validateField returns invalid with the error message "This
field is required", and the result is the same for every declared type,
so the email and tel pattern checks are never reached: the required
check short-circuits them. -/
theorem c4_required_short_circuits (s : FieldState)
    (h1 : s.input.required = true) (h2 : trimList s.input.value = []) :
    validateField s = (false, showError (clearError s) "This field is required") ∧
    ∀ ty : String,
      validateField { s with input := { s.input with type := ty } } =
        (false, showError (clearError { s with input := { s.input with type := ty } })
          "This field is required") := by
  refine ⟨validateField_required_branch s h1 h2, fun ty => ?_⟩
  exact validateField_required_branch _ h1 h2

theorem c4_witness :
    validateField (mkField "email" true "   ".data) =
      (false, showError (clearError (mkField "email" true "   ".data))
        "This field is required") := by
  exact (c4_required_short_circuits (mkField "email" true "   ".data)
    (by decide) (by decide)).1

/-- C5: for every field of kind email with a non-empty trimmed value,
validateField returns invalid with error "Please enter a valid email
address" exactly when the value fails the pattern local@domain.tld
captured by emailSpecOk (no whitespace, exactly one at-sign, a dot
separating nonempty domain and tld segments after it), and returns
valid with no message otherwise. -/
theorem c5_email_rule (s : FieldState)
    (h1 : s.input.type = "email") (h2 : trimList s.input.value ≠ []) :
    (emailSpecOk (trimList s.input.value) →
      validateField s = (true, clearError s)) ∧
    (¬ emailSpecOk (trimList s.input.value) →
      validateField s =
        (false, showError (clearError s) "Please enter a valid email address")) := by
  have hreq : ¬ (s.input.required = true ∧ trimList s.input.value = []) :=
    fun h => h2 h.2
  have hne : s.input.type ≠ "tel" := by rw [h1]; decide
  have htel : ¬ (s.input.type = "tel" ∧ trimList s.input.value ≠ [] ∧
      (telCheck (trimList s.input.value) = false ∨
        ((trimList s.input.value).filter Char.isDigit).length < 10)) :=
    fun h => hne h.1
  constructor
  · intro hspec
    have hcheck : emailCheck (trimList s.input.value) = true :=
      (emailSpecOk_iff_emailCheck _).mp hspec
    have hmail : ¬ (s.input.type = "email" ∧ trimList s.input.value ≠ [] ∧
        emailCheck (trimList s.input.value) = false) := by
      rintro ⟨-, -, hfalse⟩
      rw [hcheck] at hfalse
      exact absurd hfalse (by decide)
    unfold validateField
    rw [if_neg hreq, if_neg hmail, if_neg htel]
  · intro hspec
    have hcheck : emailCheck (trimList s.input.value) = false := by
      cases hc : emailCheck (trimList s.input.value) with
      | false => rfl
      | true => exact absurd ((emailSpecOk_iff_emailCheck _).mpr hc) hspec
    unfold validateField
    rw [if_neg hreq, if_pos ⟨h1, h2, hcheck⟩]

theorem emailCheck_true_spec (v : List Char) (h : emailCheck v = true) : emailSpecOk v :=
  (emailSpecOk_iff_emailCheck v).mpr h

theorem emailCheck_false_spec (v : List Char) (h : emailCheck v = false) : ¬ emailSpecOk v :=
  fun hs => by
    rw [(emailSpecOk_iff_emailCheck v).mp hs] at h
    exact absurd h (by decide)

theorem c5_witness :
    validateField (mkField "email" false "user@example.com".data) =
      (true, clearError (mkField "email" false "user@example.com".data)) ∧
    validateField (mkField "email" false "user@".data) =
      (false, showError (clearError (mkField "email" false "user@".data))
        "Please enter a valid email address") ∧
    validateField (mkField "email" false "user@com".data) =
      (false, showError (clearError (mkField "email" false "user@com".data))
        "Please enter a valid email address") ∧
    validateField (mkField "email" false "user example.com".data) =
      (false, showError (clearError (mkField "email" false "user example.com".data))
        "Please enter a valid email address") := by
  refine ⟨?_, ?_, ?_, ?_⟩
  · exact (c5_email_rule (mkField "email" false "user@example.com".data)
      rfl (by decide)).1 (emailCheck_true_spec _ (by decide))
  · exact (c5_email_rule (mkField "email" false "user@".data)
      rfl (by decide)).2 (emailCheck_false_spec _ (by decide))
  · exact (c5_email_rule (mkField "email" false "user@com".data)
      rfl (by decide)).2 (emailCheck_false_spec _ (by decide))
  · exact (c5_email_rule (mkField "email" false "user example.com".data)
      rfl (by decide)).2 (emailCheck_false_spec _ (by decide))

theorem telCheck_eq_all (v : List Char) (h : v ≠ []) :
    telCheck v = v.all telChar := by
  cases v with
  | nil => exact absurd rfl h
  | cons c cs => rfl

/-- C6: for every field of kind tel with a non-empty trimmed value,
validateField returns invalid with error "Please enter a valid phone
number" exactly when the value contains a character outside
digits, whitespace, hyphen, parentheses and plus, or its digit-only
count is fewer than 10. -/
theorem c6_tel_rule (s : FieldState)
    (h1 : s.input.type = "tel") (h2 : trimList s.input.value ≠ []) :
    ((∃ c ∈ trimList s.input.value, telChar c = false) ∨
        ((trimList s.input.value).filter Char.isDigit).length < 10 →
      validateField s =
        (false, showError (clearError s) "Please enter a valid phone number")) ∧
    ((∀ c ∈ trimList s.input.value, telChar c = true) →
      ¬ ((trimList s.input.value).filter Char.isDigit).length < 10 →
      validateField s = (true, clearError s)) := by
  have hreq : ¬ (s.input.required = true ∧ trimList s.input.value = []) :=
    fun h => h2 h.2
  have hne : s.input.type ≠ "email" := by rw [h1]; decide
  have hmail : ¬ (s.input.type = "email" ∧ trimList s.input.value ≠ [] ∧
      emailCheck (trimList s.input.value) = false) :=
    fun h => hne h.1
  constructor
  · intro hbad
    have hcond : telCheck (trimList s.input.value) = false ∨
        ((trimList s.input.value).filter Char.isDigit).length < 10 := by
      rcases hbad with ⟨c, hc, hfalse⟩ | hlen
      · left
        rw [telCheck_eq_all _ h2]
        cases hall : (trimList s.input.value).all telChar with
        | false => rfl
        | true => exact absurd (List.all_eq_true.mp hall c hc) (by simp [hfalse])
      · right; exact hlen
    unfold validateField
    rw [if_neg hreq, if_neg hmail, if_pos ⟨h1, h2, hcond⟩]
  · intro hall hlen
    have htel : ¬ (s.input.type = "tel" ∧ trimList s.input.value ≠ [] ∧
        (telCheck (trimList s.input.value) = false ∨
          ((trimList s.input.value).filter Char.isDigit).length < 10)) := by
      rintro ⟨-, -, hor | hor⟩
      · rw [telCheck_eq_all _ h2, List.all_eq_true.mpr hall] at hor
        exact absurd hor (by decide)
      · exact hlen hor
    unfold validateField
    rw [if_neg hreq, if_neg hmail, if_neg htel]

theorem c6_witness :
    validateField (mkField "tel" false "(555) 123-4567".data) =
      (true, clearError (mkField "tel" false "(555) 123-4567".data)) ∧
    validateField (mkField "tel" false "555-12a-3456".data) =
      (false, showError (clearError (mkField "tel" false "555-12a-3456".data))
        "Please enter a valid phone number") ∧
    validateField (mkField "tel" false "555-1234".data) =
      (false, showError (clearError (mkField "tel" false "555-1234".data))
        "Please enter a valid phone number") := by
  refine ⟨?_, ?_, ?_⟩
  · exact (c6_tel_rule (mkField "tel" false "(555) 123-4567".data)
      rfl (by decide)).2 (by decide) (by decide)
  · exact (c6_tel_rule (mkField "tel" false "555-12a-3456".data)
      rfl (by decide)).1 (Or.inl (by decide))
  · exact (c6_tel_rule (mkField "tel" false "555-1234".data)
      rfl (by decide)).1 (Or.inr (by decide))

/-- C7: the field-clear operation clearError is idempotent: from every
starting error state, applying it twice leaves the field and its
error-display target in exactly the state of applying it once, with the
error marker class absent, the message text empty and the message
hidden. -/
theorem c7_clearError_idempotent (s : FieldState) :
    clearError (clearError s) = clearError s ∧
    (clearError s).input.errorClass = false ∧
    (clearError s).errorEl =
      s.errorEl.map (fun _ => { textContent := "", display := "none" }) := by
  refine ⟨?_, rfl, rfl⟩
  cases s with
  | mk input errorEl =>
      cases errorEl <;> rfl

/-- C9: when the accessibility cross-reference of a field resolves to no
error-display element, showError still records the error state through
the marker class on the field while displaying nothing, and the verdict
of validateField is the same as it would be with the element present. -/
theorem c9_missing_error_target (s : FieldState) (msg : String)
    (h : s.errorEl = none) :
    (showError s msg).input.errorClass = true ∧
    (showError s msg).errorEl = none ∧
    ∀ e : ErrorEl,
      (validateField { s with errorEl := some e }).1 = (validateField s).1 := by
  refine ⟨rfl, by rw [showError, h]; rfl, fun e => ?_⟩
  unfold validateField
  by_cases hA : s.input.required = true ∧ trimList s.input.value = []
  · rw [if_pos hA, if_pos hA]
  · rw [if_neg hA, if_neg hA]
    by_cases hB : s.input.type = "email" ∧ trimList s.input.value ≠ [] ∧
        emailCheck (trimList s.input.value) = false
    · rw [if_pos hB, if_pos hB]
    · rw [if_neg hB, if_neg hB]
      by_cases hC : s.input.type = "tel" ∧ trimList s.input.value ≠ [] ∧
          (telCheck (trimList s.input.value) = false ∨
            ((trimList s.input.value).filter Char.isDigit).length < 10)
      · rw [if_pos hC, if_pos hC]
      · rw [if_neg hC, if_neg hC]

theorem c9_witness :
    (showError (mkBareField "email" true "".data) "Please enter a valid email address").input.errorClass = true ∧
    (showError (mkBareField "email" true "".data) "Please enter a valid email address").errorEl = none := by
  have h := c9_missing_error_target (mkBareField "email" true "".data)
    "Please enter a valid email address" rfl
  exact ⟨h.1, h.2.1⟩

theorem validateField_errorClass (s : FieldState) :
    (validateField s).2.input.errorClass = !(validateField s).1 := by
  unfold validateField
  split
  · rfl
  split
  · rfl
  split
  · rfl
  · rfl

theorem firstErrorIdx_map_validate (fs : List FieldState) :
    firstErrorIdx (fs.map (fun f => (validateField f).2)) = firstInvalidIdx fs := by
  induction fs with
  | nil => rfl
  | cons f rest ih =>
      simp only [List.map_cons, firstErrorIdx, firstInvalidIdx,
        validateField_errorClass, ih]
      cases h : (validateField f).1 <;> simp

theorem firstInvalidIdx_ne_none (fs : List FieldState)
    (h : ∃ f ∈ fs, (validateField f).1 = false) : firstInvalidIdx fs ≠ none := by
  induction fs with
  | nil => simp at h
  | cons f rest ih =>
      by_cases hf : (validateField f).1 = false
      · simp [firstInvalidIdx, hf]
      · obtain ⟨g, hg, hgf⟩ := h
        rcases List.mem_cons.mp hg with rfl | hg2
        · exact absurd hgf hf
        · have := ih ⟨g, hg2, hgf⟩
          simp only [firstInvalidIdx, if_neg hf]
          cases hr : firstInvalidIdx rest with
          | none => exact absurd hr this
          | some n => simp

/-- C3: on submit every field of the form is validated; when every
field passes, the default submission proceeds uncancelled with no focus
change, and when any field fails, the default submission is cancelled
and focus moves to the first field in document order whose input is in
error state, which is exactly the first field that failed validation. -/
theorem c3_submit_behavior (fs : List FieldState) :
    (submitHandler fs).fields = fs.map (fun f => (validateField f).2) ∧
    ((∀ f ∈ fs, (validateField f).1 = true) →
      (submitHandler fs).prevented = false ∧ (submitHandler fs).focusIdx = none) ∧
    ((∃ f ∈ fs, (validateField f).1 = false) →
      (submitHandler fs).prevented = true ∧
      (submitHandler fs).focusIdx = firstInvalidIdx fs ∧
      firstInvalidIdx fs ≠ none) := by
  by_cases hP : (fs.map validateField).all (fun p => p.1) = true
  · have hall : ∀ f ∈ fs, (validateField f).1 = true := by
      intro f hf
      exact List.all_eq_true.mp hP _ (List.mem_map_of_mem validateField hf)
    refine ⟨?_, fun _ => ?_, fun hex => ?_⟩
    · simp [submitHandler, hP, List.map_map, Function.comp_def]
    · simp [submitHandler, hP]
    · obtain ⟨f, hf, hff⟩ := hex
      rw [hall f hf] at hff
      exact absurd hff (by decide)
  · have hfields : (submitHandler fs).fields = fs.map (fun f => (validateField f).2) := by
      simp [submitHandler, hP, List.map_map, Function.comp_def]
    have hex : ∃ f ∈ fs, (validateField f).1 = false := by
      by_contra hno
      push_neg at hno
      refine hP (List.all_eq_true.mpr ?_)
      intro p hp
      obtain ⟨f, hf, rfl⟩ := List.mem_map.mp hp
      cases hv : (validateField f).1 with
      | true => rfl
      | false => exact absurd hv (by simpa using hno f hf)
    refine ⟨hfields, fun hall => ?_, fun _ => ?_⟩
    · obtain ⟨f, hf, hff⟩ := hex
      rw [hall f hf] at hff
      exact absurd hff (by decide)
    · refine ⟨by simp [submitHandler, hP], ?_, firstInvalidIdx_ne_none fs hex⟩
      have : (submitHandler fs).focusIdx =
          firstErrorIdx (fs.map (fun f => (validateField f).2)) := by
        simp [submitHandler, hP, List.map_map, Function.comp_def]
      rw [this, firstErrorIdx_map_validate]

theorem c3_witness :
    (submitHandler [mkField "text" true "hi".data, mkField "text" true "".data]).prevented = true ∧
    (submitHandler [mkField "text" true "hi".data, mkField "text" true "".data]).focusIdx = some 1 ∧
    (submitHandler [mkField "text" true "hi".data, mkField "text" true "hello".data]).prevented = false := by
  have h1 := (c3_submit_behavior
    [mkField "text" true "hi".data, mkField "text" true "".data]).2.2 (by decide)
  have h2 := (c3_submit_behavior
    [mkField "text" true "hi".data, mkField "text" true "hello".data]).2.1 (by decide)
  refine ⟨h1.1, ?_, h2.1⟩
  rw [h1.2.1]
  decide

/-! ## Lemmas about the phone formatter -/

theorem formatPhone_digits_only (v : List Char) :
    formatPhone v = formatPhone (v.filter Char.isDigit) := by
  unfold formatPhone
  rw [List.filter_filter]
  simp [Bool.and_self]

/-- C8: the phone formatter discards every non-digit character of the
input value and reformats the remaining digits progressively; in
particular an input whose digits are 5551234567 yields
(555) 123-4567, and an input with no digits yields the empty value. -/
theorem c8_formatPhone (v : List Char) :
    formatPhone v = formatPhone (v.filter Char.isDigit) ∧
    (v.filter Char.isDigit = "5551234567".data →
      formatPhone v = "(555) 123-4567".data) ∧
    (v.filter Char.isDigit = [] → formatPhone v = []) := by
  refine ⟨formatPhone_digits_only v, fun h => ?_, fun h => ?_⟩
  · unfold formatPhone
    rw [h]
    decide
  · unfold formatPhone
    rw [h]
    decide

theorem c8_witness :
    formatPhone "555-123-4567".data = "(555) 123-4567".data ∧
    formatPhone "no digits here!".data = [] := by
  constructor
  · exact (c8_formatPhone "555-123-4567".data).2.1 (by decide)
  · exact (c8_formatPhone "no digits here!".data).2.2 (by decide)

theorem formatPhone_long_shape (v : List Char)
    (h : 6 < (v.filter Char.isDigit).length) :
    formatPhone v =
      '(' :: (v.filter Char.isDigit).take 3 ++ ')' :: ' ' ::
        ((v.filter Char.isDigit).drop 3).take 3 ++
        '-' :: ((v.filter Char.isDigit).drop 6).take 4 := by
  unfold formatPhone
  rw [if_pos (by omega), if_neg (by omega), if_neg (by omega)]

/-- C10: for every input whose value contains more than 10 digits,
formatPhone keeps only the first 10 digits and silently discards the
rest: the output equals the formatting of just the first 10 digits, has
the shape built from digit positions 1 to 10, and is exactly 14
characters long. -/
theorem c10_formatPhone_truncates (v : List Char)
    (h : 10 < (v.filter Char.isDigit).length) :
    formatPhone v = formatPhone ((v.filter Char.isDigit).take 10) ∧
    formatPhone v =
      '(' :: (v.filter Char.isDigit).take 3 ++ ')' :: ' ' ::
        ((v.filter Char.isDigit).drop 3).take 3 ++
        '-' :: ((v.filter Char.isDigit).drop 6).take 4 ∧
    (formatPhone v).length = 14 := by
  have hshape := formatPhone_long_shape v (by omega)
  have hfilter : ((v.filter Char.isDigit).take 10).filter Char.isDigit =
      (v.filter Char.isDigit).take 10 := by
    refine List.filter_eq_self.mpr fun c hc => ?_
    exact List.of_mem_filter (List.take_subset 10 _ hc)
  have hlen10 : (((v.filter Char.isDigit).take 10).filter Char.isDigit).length = 10 := by
    rw [hfilter, List.length_take]
    omega
  have hshape2 := formatPhone_long_shape ((v.filter Char.isDigit).take 10) (by omega)
  rw [hfilter] at hshape2
  refine ⟨?_, hshape, ?_⟩
  · rw [hshape, hshape2]
    simp only [List.take_take, List.drop_take]
    norm_num
  · rw [hshape]
    simp only [List.length_append, List.length_cons, List.length_take, List.length_drop]
    omega

theorem c10_witness :
    formatPhone "55512345678999".data =
      formatPhone (("55512345678999".data.filter Char.isDigit).take 10) ∧
    (formatPhone "55512345678999".data).length = 14 := by
  have h := c10_formatPhone_truncates "55512345678999".data (by decide)
  exact ⟨h.1, h.2.2⟩

/-! ## Lemmas about the FAQ accordion -/

theorem countOpen_closeOthers (l : List FaqItem) : countOpen (closeOthers l) = 0 := by
  induction l with
  | nil => rfl
  | cons it rest ih =>
      cases h : it.isOpen with
      | false =>
          simp [closeOthers, countOpen, List.countP_cons, h] at *
          exact ih
      | true =>
          simp [closeOthers, countOpen, List.countP_cons, h, closeItem] at *
          exact ih

theorem countOpen_faqClickAux (k : Nat) (b : Bool) (l : List FaqItem) :
    countOpen (faqClickAux k b l) ≤ 1 := by
  induction l generalizing k with
  | nil => simp [faqClickAux, countOpen]
  | cons it rest ih =>
      cases k with
      | zero =>
          have h0 := countOpen_closeOthers rest
          simp only [faqClickAux, countOpen, List.countP_cons] at *
          rw [h0]
          cases b <;> simp
      | succ n =>
          have hn := ih n
          simp only [faqClickAux, countOpen, List.countP_cons] at *
          cases h : it.isOpen <;> simp [closeItem, h] <;> omega

theorem faqClickAux_getElem_ne (k j : Nat) (b : Bool) (l : List FaqItem)
    (hne : j ≠ k) :
    (faqClickAux k b l)[j]? =
      (l[j]?).map (fun it => if it.isOpen = true then closeItem it else it) := by
  induction l generalizing k j with
  | nil => simp [faqClickAux]
  | cons it rest ih =>
      cases k with
      | zero =>
          cases j with
          | zero => exact absurd rfl hne
          | succ m =>
              simp only [faqClickAux, List.getElem?_cons_succ, closeOthers]
              exact List.getElem?_map _ rest m
      | succ n =>
          cases j with
          | zero => simp [faqClickAux]
          | succ m =>
              simp only [faqClickAux, List.getElem?_cons_succ]
              exact ih n m (fun hmn => hne (by rw [hmn]))

theorem faqClickAux_getElem_self (k : Nat) (b : Bool) (l : List FaqItem)
    (hk : k < l.length) :
    (faqClickAux k b l)[k]? =
      (l[k]?).map (fun it => { it with isOpen := !b, expanded := !b }) := by
  induction l generalizing k with
  | nil => simp at hk
  | cons it rest ih =>
      cases k with
      | zero => simp [faqClickAux]
      | succ n =>
          simp only [faqClickAux, List.getElem?_cons_succ]
          exact ih n (by simpa using hk)

theorem getD_eq_of_lt (l : List FaqItem) (k : Nat) (hk : k < l.length) :
    l[k]? = some (l.getD k dfltItem) := by
  rw [List.getD_eq_getElem?_getD, List.getElem?_eq_getElem hk]
  rfl

theorem countOpen_faqClick (items : List FaqItem) (k : Nat) :
    countOpen (faqClick items k) ≤ 1 :=
  countOpen_faqClickAux k _ items

theorem countOpen_foldl_faqClick (ks : List Nat) (items : List FaqItem)
    (hne : ks ≠ []) : countOpen (ks.foldl faqClick items) ≤ 1 := by
  induction ks generalizing items with
  | nil => exact absurd rfl hne
  | cons k rest ih =>
      cases rest with
      | nil => simpa [List.foldl] using countOpen_faqClick items k
      | cons k2 rest2 =>
          simp only [List.foldl]
          exact ih _ (by simp)

/-- C1 (amended): after any single activation through the click handler
installed by initFaqAccordions, at most one panel is open: the clicked
panel toggles against its previous state and every other panel ends
closed, so activating closed panel B while panel A is open leaves A
closed and B open; the bound also holds after every nonempty sequence
of such activations.  The original claim extended this to the public
toggleFaq utility, which the counterexample refutes. -/
theorem c1_amended_exclusive (items : List FaqItem) (k : Nat)
    (hk : k < items.length) :
    countOpen (faqClick items k) ≤ 1 ∧
    ((faqClick items k)[k]?).map (fun it => it.isOpen) =
      (items[k]?).map (fun it => !it.isOpen) ∧
    (∀ j, j ≠ k → ((faqClick items k)[j]?).map (fun it => it.isOpen) =
      (items[j]?).map (fun _ => false)) ∧
    (∀ ks : List Nat, ks ≠ [] → countOpen (ks.foldl faqClick items) ≤ 1) := by
  refine ⟨countOpen_faqClick items k, ?_, fun j hne => ?_,
    fun ks hne => countOpen_foldl_faqClick ks items hne⟩
  · unfold faqClick
    rw [faqClickAux_getElem_self _ _ _ hk, getD_eq_of_lt items k hk]
    rfl
  · unfold faqClick
    rw [faqClickAux_getElem_ne k j _ items hne]
    cases hj : items[j]? with
    | none => rfl
    | some it =>
        cases h : it.isOpen <;> simp [closeItem, h]

/-- C1 (counterexample): starting from a two-panel group with both
panels closed, clicking panel 0 opens exactly one panel, but a single
subsequent activation through the public toggleFaq utility on panel 1
leaves two panels open, refuting the claim that at most one panel is
open after any single activation including ones through toggleFaq. -/
theorem c1_counterexample_toggleFaq :
    countOpen (faqClick [dfltItem, dfltItem] 0) = 1 ∧
    countOpen (toggleFaq (faqClick [dfltItem, dfltItem] 0) 1) = 2 := by
  decide

theorem c1_witness :
    countOpen (faqClick ([{ isOpen := true, expanded := true, container := 0 },
        { isOpen := false, expanded := false, container := 0 }] : List FaqItem) 1) ≤ 1 ∧
    ((faqClick ([{ isOpen := true, expanded := true, container := 0 },
        { isOpen := false, expanded := false, container := 0 }] : List FaqItem) 1)[1]?).map
      (fun it => it.isOpen) = some true ∧
    ((faqClick ([{ isOpen := true, expanded := true, container := 0 },
        { isOpen := false, expanded := false, container := 0 }] : List FaqItem) 1)[0]?).map
      (fun it => it.isOpen) = some false := by
  have h := c1_amended_exclusive
    ([{ isOpen := true, expanded := true, container := 0 },
      { isOpen := false, expanded := false, container := 0 }] : List FaqItem) 1 (by decide)
  refine ⟨h.1, ?_, ?_⟩
  · rw [h.2.1]; decide
  · rw [h.2.2.1 0 (by decide)]; decide

/-- C2 (amended): toggling a panel acts on the single page-wide
collection gathered at initialization: every other panel on the page,
in whatever container, is closed with its expanded flag cleared when it
was open, and left unchanged when it was closed.  Panels in a different
container are therefore affected, contrary to the original claim. -/
theorem c2_amended_page_wide (items : List FaqItem) (k j : Nat) (hne : j ≠ k) :
    (faqClick items k)[j]? =
      (items[j]?).map (fun it => if it.isOpen = true then closeItem it else it) := by
  unfold faqClick
  exact faqClickAux_getElem_ne k j _ items hne

/-- C2 (counterexample): with panel 0 open in container 0 and panel 1
closed in container 1, toggling panel 1 closes panel 0 and clears its
expanded flag even though panel 0 belongs to a different container,
refuting the claim that panels of other groups are unchanged. -/
theorem c2_counterexample_cross_container :
    ({ isOpen := true, expanded := true, container := 0 } : FaqItem).container ≠
      ({ isOpen := false, expanded := false, container := 1 } : FaqItem).container ∧
    (faqClick ([{ isOpen := true, expanded := true, container := 0 },
        { isOpen := false, expanded := false, container := 1 }] : List FaqItem) 1)[0]? =
      some { isOpen := false, expanded := false, container := 0 } ∧
    (faqClick ([{ isOpen := true, expanded := true, container := 0 },
        { isOpen := false, expanded := false, container := 1 }] : List FaqItem) 1)[0]? ≠
      some { isOpen := true, expanded := true, container := 0 } := by
  decide

theorem c2_witness :
    (faqClick ([{ isOpen := true, expanded := true, container := 0 },
        { isOpen := false, expanded := false, container := 1 }] : List FaqItem) 1)[0]? =
      some { isOpen := false, expanded := false, container := 0 } := by
  have h := c2_amended_page_wide
    ([{ isOpen := true, expanded := true, container := 0 },
      { isOpen := false, expanded := false, container := 1 }] : List FaqItem) 1 0 (by decide)
  rw [h]
  decide
